import Mathlib

/-!
Shallow embedding of src/binexp_parser.py.

The Python class BinOpAst builds a binary-operator AST from a token list in
prefix notation (popping tokens destructively from the front), serializes a
tree back to prefix text, and rewrites additive and multiplicative
identities in place via simplify_binops.

Modelling conventions:
* Python attribute errors (touching val / type / left / right on an object
  whose constructor ran on an empty list and hence set no attributes, or on
  the literal False stored in a number leaf's child slots) are modelled by
  accessor functions returning Option, with none as the raised exception;
  every fallible method is an Option-valued function and none means the
  Python call raises.
* The constructor's destructive pop-from-the-front recursion is modelled by
  a cursor-style function returning the built node together with the tokens
  that remain; the recursion is driven by a fuel argument equal to the
  length of the token list, which is always sufficient because every
  recursive call consumes at least one token (build_wf below proves the
  parse of a well-formed expression is the same under any fuel that covers
  the list).
* In-place mutation of self's four attributes is modelled by returning the
  node value the attributes describe after the method body; assignments are
  replayed in the source's order so that the source's aliasing (reading
  self.left.right after self.left was already reassigned) is reproduced
  exactly.
-/

/-- The two tags of the Python Enum BinOpNodeType. -/
inductive NodeType where
  | number
  | operator
deriving DecidableEq

/-- A value that can sit in a BinOpAst variable or child slot: an object
whose constructor consumed an empty list and set no attributes (uninit),
the Python literal False that the constructor stores in both child slots of
a number leaf (pyFalse), a number leaf carrying its literal text, or an
operator node carrying its symbol and its two child slots. -/
inductive BinOpAst where
  | uninit
  | pyFalse
  | number (val : String)
  | operator (val : String) (left right : BinOpAst)
deriving DecidableEq

/-- Reading the val attribute; none is Python's AttributeError. -/
def getVal : BinOpAst → Option String
  | BinOpAst.number v => some v
  | BinOpAst.operator v _ _ => some v
  | _ => none

/-- Reading the type attribute; none is Python's AttributeError. -/
def getType : BinOpAst → Option NodeType
  | BinOpAst.number _ => some NodeType.number
  | BinOpAst.operator _ _ _ => some NodeType.operator
  | _ => none

/-- Reading the left attribute: False on a number leaf, the left child on
an operator node, AttributeError otherwise. -/
def getLeft : BinOpAst → Option BinOpAst
  | BinOpAst.number _ => some BinOpAst.pyFalse
  | BinOpAst.operator _ l _ => some l
  | _ => none

/-- Reading the right attribute: False on a number leaf, the right child on
an operator node, AttributeError otherwise. -/
def getRight : BinOpAst → Option BinOpAst
  | BinOpAst.number _ => some BinOpAst.pyFalse
  | BinOpAst.operator _ _ r => some r
  | _ => none

/-- An ASCII digit, the only characters the grammar's numeric tokens use. -/
def isDigitChar (c : Char) : Bool := 48 ≤ c.toNat && c.toNat ≤ 57

/-- Python str.isnumeric on the ASCII token alphabet this grammar uses:
true exactly when the string is nonempty and all characters are digits. -/
def pyIsnumeric (s : String) : Bool := !s.isEmpty && s.data.all isDigitChar

/-- Python int() on a string of ASCII digits. -/
def strToNat (s : String) : Nat :=
  s.data.foldl (fun n c => 10 * n + (c.toNat - 48)) 0

/-- The constructor of BinOpAst, modelled with a cursor: given the tokens
still to be consumed, return the constructed node together with the tokens
left over.  On an empty list the Python constructor returns immediately
without setting any attribute (the uninit node); otherwise it pops the
first token, makes a number leaf if the token is numeric, and otherwise
makes an operator node whose left child is built first from the remaining
tokens and whose right child is built from what the left child left over.
The fuel argument only bounds the recursion depth; buildAst below always
supplies enough of it. -/
def buildFuel : Nat → List String → BinOpAst × List String
  | _, [] => (BinOpAst.uninit, [])
  | 0, v :: rest => (BinOpAst.uninit, v :: rest)
  | fuel + 1, v :: rest =>
      if pyIsnumeric v then (BinOpAst.number v, rest)
      else
        let p1 := buildFuel fuel rest
        let p2 := buildFuel fuel p1.2
        (BinOpAst.operator v p1.1 p2.1, p2.2)

/-- Building a tree from a whole token list: the Python expression
BinOpAst(tokens), paired with the tokens remaining in the destroyed list. -/
def buildAst (tokens : List String) : BinOpAst × List String :=
  buildFuel tokens.length tokens

/-- The prefix_str method: a number leaf prints its literal text, an
operator node prints its symbol then the prefix forms of its two children,
single-space separated; a match on a missing type attribute, or a recursive
call on False or on an uninit child, raises (none). -/
def prefix_str : BinOpAst → Option String
  | BinOpAst.number v => some v
  | BinOpAst.operator v l r => do
      let ls ← prefix_str l
      let rs ← prefix_str r
      pure (v ++ " " ++ ls ++ " " ++ rs)
  | _ => none

/-- The additive_identity method, replaying the source's assignments in
order.  When val is "+" and the left child's text is numeric with integer
value 0, self is overwritten with the right child's val and type, and the
right child's children are carried over when it is an operator (the
re-reads of self.right here are unaliased: self.right is reassigned last).
In the elif branch (right child is the zero), the source first reassigns
self.left to self.left.left and only then reads self.left.right for the
new right child, so the new right child is taken from the NEW left, an
aliasing slip reproduced here by reading getRight newLeft. -/
def additive_identity (self : BinOpAst) : Option BinOpAst := do
  let v ← getVal self
  if v = "+" then
    let l0 ← getLeft self
    let lv ← getVal l0
    if pyIsnumeric lv && strToNat lv == 0 then
      let r ← getRight self
      let rv ← getVal r
      let rt ← getType r
      if rt = NodeType.operator then
        let rl ← getLeft r
        let rr ← getRight r
        pure (BinOpAst.operator rv rl rr)
      else
        pure (BinOpAst.number rv)
    else
      let r ← getRight self
      let rv ← getVal r
      if pyIsnumeric rv && strToNat rv == 0 then
        let l ← getLeft self
        let lv2 ← getVal l
        let lt ← getType l
        if lt = NodeType.operator then
          let newLeft ← getLeft l
          let newRight ← getRight newLeft
          pure (BinOpAst.operator lv2 newLeft newRight)
        else
          pure (BinOpAst.number lv2)
      else
        pure self
  else
    pure self

/-- The multiplicative_identity method: identical to additive_identity
with operator symbol "*" and identity literal value 1, including the same
aliasing slip in the elif (right child is the one) branch. -/
def multiplicative_identity (self : BinOpAst) : Option BinOpAst := do
  let v ← getVal self
  if v = "*" then
    let l0 ← getLeft self
    let lv ← getVal l0
    if pyIsnumeric lv && strToNat lv == 1 then
      let r ← getRight self
      let rv ← getVal r
      let rt ← getType r
      if rt = NodeType.operator then
        let rl ← getLeft r
        let rr ← getRight r
        pure (BinOpAst.operator rv rl rr)
      else
        pure (BinOpAst.number rv)
    else
      let r ← getRight self
      let rv ← getVal r
      if pyIsnumeric rv && strToNat rv == 1 then
        let l ← getLeft self
        let lv2 ← getVal l
        let lt ← getType l
        if lt = NodeType.operator then
          let newLeft ← getLeft l
          let newRight ← getRight newLeft
          pure (BinOpAst.operator lv2 newLeft newRight)
        else
          pure (BinOpAst.number lv2)
      else
        pure self
  else
    pure self

/-- The simplify_binops method: read self.left.type and recur on the left
child when it is an operator, then the same for the right child, then apply
additive_identity and multiplicative_identity at self (the mult_by_zero and
constant_fold calls are commented out in the source).  Called on a number
leaf, self.left is False and reading False.type raises; called on an uninit
object, reading self.left raises; both are none. -/
def simplify_binops : BinOpAst → Option BinOpAst
  | BinOpAst.operator v l r => do
      let lt ← getType l
      let l2 ← if lt = NodeType.operator then simplify_binops l else pure l
      let rt ← getType r
      let r2 ← if rt = NodeType.operator then simplify_binops r else pure r
      let s2 ← additive_identity (BinOpAst.operator v l2 r2)
      multiplicative_identity s2
  | BinOpAst.number _ => none
  | BinOpAst.uninit => none
  | BinOpAst.pyFalse => none

/-- The pipeline the test harness runs on every input line: build the tree
from the token list, simplify it in place, serialize to prefix text. -/
def simplifyToPrefix (tokens : List String) : Option String := do
  let t2 ← simplify_binops (buildAst tokens).1
  prefix_str t2

/-- The spec's structural invariant as a predicate on trees: number leaves
are well shaped, an operator node needs both children present (an actual
node, not False and not an attribute-less object) and themselves well
shaped. -/
def wellShaped : BinOpAst → Bool
  | BinOpAst.number _ => true
  | BinOpAst.operator _ l r => wellShaped l && wellShaped r
  | BinOpAst.uninit => false
  | BinOpAst.pyFalse => false

/-- The original tokens joined by single spaces, as the spec's round-trip
property reads them. -/
def joinTokens : List String → String
  | [] => ""
  | [s] => s
  | s :: rest => s ++ " " ++ joinTokens rest

/-- Well-formed prefix token lists: a single numeric token, or a
non-numeric operator token followed by two well-formed operand lists. -/
inductive WellFormed : List String → Prop where
  | num (s : String) (h : pyIsnumeric s = true) : WellFormed [s]
  | op (v : String) (hv : pyIsnumeric v = false) (l r : List String)
      (hl : WellFormed l) (hr : WellFormed r) : WellFormed (v :: (l ++ r))

lemma wellFormed_ne_nil {l : List String} (h : WellFormed l) : l ≠ [] := by
  cases h <;> simp

lemma joinTokens_cons (s : String) {rest : List String} (h : rest ≠ []) :
    joinTokens (s :: rest) = s ++ " " ++ joinTokens rest := by
  cases rest with
  | nil => exact absurd rfl h
  | cons x xs => rfl

lemma joinTokens_append {l r : List String} (hl : l ≠ []) (hr : r ≠ []) :
    joinTokens (l ++ r) = joinTokens l ++ " " ++ joinTokens r := by
  induction l with
  | nil => exact absurd rfl hl
  | cons s l ih =>
      cases l with
      | nil =>
          rw [List.singleton_append, joinTokens_cons s hr]
          rfl
      | cons x xs =>
          have h1 : (x :: xs : List String) ≠ [] := by simp
          have h2 : (x :: xs) ++ r ≠ [] := by simp
          rw [List.cons_append, joinTokens_cons s h2, ih h1,
            joinTokens_cons s h1]
          simp [String.append_assoc]

lemma build_wf {l : List String} (h : WellFormed l) :
    ∃ t, (∀ rest f, l.length + rest.length ≤ f →
        buildFuel f (l ++ rest) = (t, rest)) ∧
      prefix_str t = some (joinTokens l) ∧ wellShaped t = true := by
  induction h with
  | num s hs =>
      refine ⟨BinOpAst.number s, ?_, rfl, rfl⟩
      intro rest f hf
      simp only [List.length_singleton] at hf
      cases f with
      | zero => omega
      | succ f => simp [buildFuel, hs]
  | op v hv l r hl hr ihl ihr =>
      obtain ⟨tl, hbl, hpl, hwl⟩ := ihl
      obtain ⟨tr, hbr, hpr, hwr⟩ := ihr
      refine ⟨BinOpAst.operator v tl tr, ?_, ?_, ?_⟩
      · intro rest f hf
        simp only [List.length_cons, List.length_append] at hf
        cases f with
        | zero => omega
        | succ f =>
          have e1 : (v :: (l ++ r)) ++ rest = v :: (l ++ (r ++ rest)) := by
            simp
          rw [e1]
          have hb1 : buildFuel f (l ++ (r ++ rest)) = (tl, r ++ rest) := by
            apply hbl
            simp only [List.length_append]
            omega
          have hb2 : buildFuel f (r ++ rest) = (tr, rest) := by
            apply hbr
            omega
          simp [buildFuel, hv, hb1, hb2]
      · have hlr : (l ++ r : List String) ≠ [] := by
          cases l with
          | nil => exact absurd rfl (wellFormed_ne_nil hl)
          | cons a as => simp
        rw [joinTokens_cons v hlr,
          joinTokens_append (wellFormed_ne_nil hl) (wellFormed_ne_nil hr)]
        simp [prefix_str, hpl, hpr, String.append_assoc]
      · simp [wellShaped, hwl, hwr]

lemma buildAst_wf {l : List String} (h : WellFormed l) :
    (∀ rest, buildAst (l ++ rest) = ((buildAst l).1, rest)) ∧
      (buildAst l).2 = [] ∧
      prefix_str (buildAst l).1 = some (joinTokens l) ∧
      wellShaped (buildAst l).1 = true := by
  obtain ⟨t, hb, hp, hw⟩ := build_wf h
  have h0 : buildAst l = (t, []) := by
    have h1 := hb [] l.length (by simp)
    simpa [buildAst] using h1
  refine ⟨?_, by simp [h0], by simp [h0, hp], by simp [h0, hw]⟩
  intro rest
  have h1 := hb rest (l ++ rest).length (by simp)
  rw [show buildAst (l ++ rest) = buildFuel (l ++ rest).length (l ++ rest)
    from rfl, h1, h0]

lemma identityGuardFalse {a : String} {n : Nat}
    (hg : (pyIsnumeric a && strToNat a == n) = false) :
    ¬(pyIsnumeric a = true ∧ strToNat a = n) := by
  intro h
  rw [h.1, h.2] at hg
  simp at hg

theorem C10_identity_rules_compare_by_integer_value
    (s t : String) (l r : BinOpAst) (lv : String)
    (hs1 : pyIsnumeric s = true) (hs0 : strToNat s = 0)
    (ht1 : pyIsnumeric t = true) (ht0 : strToNat t = 1) :
    (additive_identity (BinOpAst.operator "+" (BinOpAst.number s) r) =
      additive_identity (BinOpAst.operator "+" (BinOpAst.number "0") r)) ∧
    (getVal l = some lv → (pyIsnumeric lv && strToNat lv == 0) = false →
      additive_identity (BinOpAst.operator "+" l (BinOpAst.number s)) =
        additive_identity (BinOpAst.operator "+" l (BinOpAst.number "0"))) ∧
    (multiplicative_identity (BinOpAst.operator "*" (BinOpAst.number t) r) =
      multiplicative_identity (BinOpAst.operator "*" (BinOpAst.number "1") r)) ∧
    (getVal l = some lv → (pyIsnumeric lv && strToNat lv == 1) = false →
      multiplicative_identity (BinOpAst.operator "*" l (BinOpAst.number t)) =
        multiplicative_identity (BinOpAst.operator "*" l (BinOpAst.number "1"))) := by
  have e1 : pyIsnumeric "0" = true := by decide
  have e2 : strToNat "0" = 0 := by decide
  have e3 : pyIsnumeric "1" = true := by decide
  have e4 : strToNat "1" = 1 := by decide
  refine ⟨?_, ?_, ?_, ?_⟩
  · simp [additive_identity, getVal, getLeft, getRight, getType, hs1, hs0,
      e1, e2]
  · intro hl hg
    cases l with
    | uninit => simp [getVal] at hl
    | pyFalse => simp [getVal] at hl
    | number a =>
        simp only [getVal, Option.some.injEq] at hl
        subst hl
        simp [additive_identity, getVal, getLeft, getRight, getType, hs1,
          hs0, e1, e2]
        rw [if_neg (identityGuardFalse hg), if_neg (identityGuardFalse hg)]
    | operator a x y =>
        simp only [getVal, Option.some.injEq] at hl
        subst hl
        simp [additive_identity, getVal, getLeft, getRight, getType, hs1,
          hs0, e1, e2]
        rw [if_neg (identityGuardFalse hg), if_neg (identityGuardFalse hg)]
  · simp [multiplicative_identity, getVal, getLeft, getRight, getType, ht1,
      ht0, e3, e4]
  · intro hl hg
    cases l with
    | uninit => simp [getVal] at hl
    | pyFalse => simp [getVal] at hl
    | number a =>
        simp only [getVal, Option.some.injEq] at hl
        subst hl
        simp [multiplicative_identity, getVal, getLeft, getRight, getType,
          ht1, ht0, e3, e4]
        rw [if_neg (identityGuardFalse hg), if_neg (identityGuardFalse hg)]
    | operator a x y =>
        simp only [getVal, Option.some.injEq] at hl
        subst hl
        simp [multiplicative_identity, getVal, getLeft, getRight, getType,
          ht1, ht0, e3, e4]
        rw [if_neg (identityGuardFalse hg), if_neg (identityGuardFalse hg)]

/-- C1: the claim that building ["+"] ++ x ++ ["0"] and simplifying yields
the same prefix string as simplifying x alone fails for x = ["+","1","2"]:
the source's right-operand zero branch reassigns self.left before reading
self.left.right, so the simplified tree is an operator node whose right
child is the literal False and serialization raises, while x alone
simplifies to "+ 1 2".  The left-operand form ["+","0"] ++ x does work on
this x, shown for contrast. -/
theorem C1_additive_identity_right_zero_crashes :
    simplifyToPrefix ["+", "+", "1", "2", "0"] = none ∧
    simplifyToPrefix ["+", "1", "2"] = some "+ 1 2" ∧
    simplifyToPrefix ["+", "0", "+", "1", "2"] = some "+ 1 2" := by
  exact ⟨rfl, rfl, rfl⟩

/-- C2: the claim that building ["*"] ++ x ++ ["1"] and simplifying yields
the same prefix string as simplifying x alone fails for x = ["*","2","3"]:
the same aliasing slip in the right-operand one branch leaves an operator
node whose right child is the literal False, and serialization raises,
while x alone simplifies to "* 2 3".  The left-operand form ["*","1"] ++ x
does work on this x, shown for contrast. -/
theorem C2_multiplicative_identity_right_one_crashes :
    simplifyToPrefix ["*", "*", "2", "3", "1"] = none ∧
    simplifyToPrefix ["*", "2", "3"] = some "* 2 3" ∧
    simplifyToPrefix ["*", "1", "*", "2", "3"] = some "* 2 3" := by
  exact ⟨rfl, rfl, rfl⟩

/-- C3: the two-present-children invariant holds of the tree built from
["+","+","3","4","0"] but is destroyed by simplify_binops, which returns an
operator node whose right child is the literal False. -/
theorem C3_simplify_breaks_two_children_invariant :
    wellShaped (buildAst ["+", "+", "3", "4", "0"]).1 = true ∧
    simplify_binops (buildAst ["+", "+", "3", "4", "0"]).1 =
      some (BinOpAst.operator "+" (BinOpAst.number "3") BinOpAst.pyFalse) ∧
    wellShaped (BinOpAst.operator "+" (BinOpAst.number "3") BinOpAst.pyFalse)
      = false := by
  exact ⟨rfl, rfl, rfl⟩

/-- C4: simplify is not idempotent on the tree built from
["*","*","5","6","1"]: the first simplify_binops call returns normally with
an operator node whose right child is the literal False, and the second
call raises (reading type on False), so the second pass fails instead of
finding nothing further to rewrite. -/
theorem C4_second_simplify_raises :
    simplify_binops (buildAst ["*", "*", "5", "6", "1"]).1 =
      some (BinOpAst.operator "*" (BinOpAst.number "5") BinOpAst.pyFalse) ∧
    simplify_binops
      (BinOpAst.operator "*" (BinOpAst.number "5") BinOpAst.pyFalse)
      = none := by
  exact ⟨rfl, rfl⟩

/-- C5: simplify_binops raises on the well-formed tree built from the
single-token list ["5"]: on a number leaf self.left is the literal False
and reading False.type raises, contradicting the claim that simplification
has no error conditions on well-formed trees. -/
theorem C5_simplify_raises_on_number_leaf :
    (buildAst ["5"]).1 = BinOpAst.number "5" ∧
    simplify_binops (BinOpAst.number "5") = none := by
  exact ⟨rfl, rfl⟩

/-- C6 counterexample: construction from the malformed list ["+","3"] does
not fail: the constructor (total in this model, as in the source, which has
no raise path and no attribute access in its body) returns normally,
producing an operator node whose right operand is an object on which no
attribute was ever set, rather than propagating a MalformedExpression
error. -/
theorem C6_build_returns_normally_on_exhausted_tokens :
    buildAst ["+", "3"] =
      (BinOpAst.operator "+" (BinOpAst.number "3") BinOpAst.uninit, []) := by
  exact rfl

/-- C6 amended: construction from ["+","3"] returns normally with the
missing operand left as an attribute-less node, and the error surfaces
only later: both serializing and simplifying the resulting tree raise. -/
theorem C6_error_surfaces_after_construction :
    (buildAst ["+", "3"]).1 =
      BinOpAst.operator "+" (BinOpAst.number "3") BinOpAst.uninit ∧
    prefix_str (BinOpAst.operator "+" (BinOpAst.number "3") BinOpAst.uninit)
      = none ∧
    simplify_binops
      (BinOpAst.operator "+" (BinOpAst.number "3") BinOpAst.uninit)
      = none := by
  exact ⟨rfl, rfl, rfl⟩

/-- C7: prefix serialization inverts construction.  For every well-formed
token list the tree built from it serializes back to the original tokens
joined by single spaces, and in particular a single numeric token builds a
leaf that serializes to exactly that token. -/
theorem C7_prefix_serialization_inverts_build :
    (∀ l, WellFormed l →
      prefix_str (buildAst l).1 = some (joinTokens l)) ∧
    (∀ n, pyIsnumeric n = true → prefix_str (buildAst [n]).1 = some n) := by
  constructor
  · intro l h
    exact (buildAst_wf h).2.2.1
  · intro n hn
    have h := (buildAst_wf (WellFormed.num n hn)).2.2.1
    simpa [joinTokens] using h

/-- C7 witness: the round-trip theorem applied at the concrete well-formed
list ["+","3","5"]. -/
theorem C7_prefix_serialization_inverts_build_witness :
    WellFormed ["+", "3", "5"] ∧
    prefix_str (buildAst ["+", "3", "5"]).1 = some "+ 3 5" := by
  have h : WellFormed ["+", "3", "5"] :=
    WellFormed.op "+" (by decide) ["3"] ["5"]
      (WellFormed.num "3" (by decide)) (WellFormed.num "5" (by decide))
  have h2 := C7_prefix_serialization_inverts_build.1 ["+", "3", "5"] h
  exact ⟨h, h2⟩

/-- C8: construction consumes exactly the well-formed expression from the
front of the token sequence: on a list that is exactly a well-formed
expression nothing remains, and prepending that expression to any suffix
consumes the expression and leaves precisely the suffix (tokens are taken
once each, left to right). -/
theorem C8_build_consumes_all_tokens (l rest : List String)
    (h : WellFormed l) :
    (buildAst l).2 = [] ∧
    buildAst (l ++ rest) = ((buildAst l).1, rest) := by
  exact ⟨(buildAst_wf h).2.1, (buildAst_wf h).1 rest⟩

/-- C8 witness: the consumption theorem applied at the concrete
well-formed list ["*","1","4"] with suffix ["9"]. -/
theorem C8_build_consumes_all_tokens_witness :
    WellFormed ["*", "1", "4"] ∧
    ((buildAst ["*", "1", "4"]).2 = [] ∧
      buildAst (["*", "1", "4"] ++ ["9"]) =
        ((buildAst ["*", "1", "4"]).1, ["9"])) := by
  have h : WellFormed ["*", "1", "4"] :=
    WellFormed.op "*" (by decide) ["1"] ["4"]
      (WellFormed.num "1" (by decide)) (WellFormed.num "4" (by decide))
  exact ⟨h, C8_build_consumes_all_tokens ["*", "1", "4"] ["9"] h⟩

/-- C9: the constructor run on an empty token list raises nothing and sets
nothing: it yields the attribute-less object (every attribute read on it
raises), and the error surfaces only later, when that object is serialized
or simplified. -/
theorem C9_empty_token_list_constructor :
    buildAst [] = (BinOpAst.uninit, []) ∧
    getVal BinOpAst.uninit = none ∧
    getType BinOpAst.uninit = none ∧
    getLeft BinOpAst.uninit = none ∧
    getRight BinOpAst.uninit = none ∧
    prefix_str BinOpAst.uninit = none ∧
    simplify_binops BinOpAst.uninit = none := by
  exact ⟨rfl, rfl, rfl, rfl, rfl, rfl, rfl⟩

/-- C10 witness: the integer-value comparison theorem applied at the
concrete literals "00" and "01" with number operands "5" and "7". -/
theorem C10_identity_rules_compare_by_integer_value_witness :
    pyIsnumeric "00" = true ∧ strToNat "00" = 0 ∧
    pyIsnumeric "01" = true ∧ strToNat "01" = 1 ∧
    additive_identity
        (BinOpAst.operator "+" (BinOpAst.number "00") (BinOpAst.number "7"))
      = additive_identity
        (BinOpAst.operator "+" (BinOpAst.number "0") (BinOpAst.number "7")) ∧
    additive_identity
        (BinOpAst.operator "+" (BinOpAst.number "5") (BinOpAst.number "00"))
      = additive_identity
        (BinOpAst.operator "+" (BinOpAst.number "5") (BinOpAst.number "0")) ∧
    multiplicative_identity
        (BinOpAst.operator "*" (BinOpAst.number "01") (BinOpAst.number "7"))
      = multiplicative_identity
        (BinOpAst.operator "*" (BinOpAst.number "1") (BinOpAst.number "7")) ∧
    multiplicative_identity
        (BinOpAst.operator "*" (BinOpAst.number "5") (BinOpAst.number "01"))
      = multiplicative_identity
        (BinOpAst.operator "*" (BinOpAst.number "5") (BinOpAst.number "1"))
      := by
  have h := C10_identity_rules_compare_by_integer_value "00" "01"
    (BinOpAst.number "5") (BinOpAst.number "7") "5"
    (by decide) (by decide) (by decide) (by decide)
  exact ⟨by decide, by decide, by decide, by decide, h.1,
    h.2.1 (by decide) (by decide), h.2.2.1,
    h.2.2.2 (by decide) (by decide)⟩
